import Mathlib

/-!
Shallow embedding of `kp::Manager` (src/src/include/kompute/Manager.hpp) from
the kompute resource-orchestration core, together with a small ownership heap
that models C++ `shared_ptr` / `weak_ptr` semantics.  The factory bodies
(`tensorT`, the two `tensor` overloads, the two `algorithm` overloads) are
inline in the header and are translated directly.  The bodies of `clear()`,
`destroy()` and the constructors live in a source file that is not part of the
given sources; those are modelled from the spec, as marked on each definition.
-/

namespace Kompute

/-- Modelled from the spec: the Tensor storage-class tag
`{device-local, host-visible/staging, device-and-host}` (`Tensor::TensorTypes`,
whose declaration is not among the given sources; only `eDevice` is named in
Manager.hpp as the default argument). -/
inductive TensorTypes
  | eDevice
  | eHost
  | eDeviceAndHost
deriving DecidableEq, Repr

/-- Modelled from the spec: the Tensor element data-type tag
(`Tensor::TensorDataTypes`, whose declaration is not among the given sources);
the manager only passes it through, so it is kept as an opaque tag value. -/
structure TensorDataTypes where
  tag : Nat
deriving DecidableEq, Repr

/-- The C++ `float` element type.  The manager never interprets element
values, so a float is modelled as an opaque bit pattern. -/
structure CFloat where
  bits : Nat
deriving DecidableEq, Repr

/-- Ownership heap modelling C++ `shared_ptr` / `weak_ptr` semantics.
Every `new`-ed object gets the next fresh id; `refCount` counts the owning
(shared) references to each id; a weak reference is just the id and
contributes nothing to `refCount`.  `released` records that `destroy()` has
explicitly released an object's GPU memory; `handleAlive` records validity of
the native Vulkan instance/device handles (by handle id). -/
structure Heap where
  nextId : Nat
  refCount : Nat → Nat
  released : Nat → Bool
  handleAlive : Nat → Bool

/-- `new` an object: fresh id, one owning reference (the returned
`shared_ptr`). -/
def Heap.alloc (h : Heap) : Heap :=
  { h with
    nextId := h.nextId + 1
    refCount := fun i => if i = h.nextId then 1 else h.refCount i }

/-- Drop one owning (shared) reference to object `i`, e.g. a caller's
`shared_ptr` going out of scope. -/
def Heap.drop (h : Heap) (i : Nat) : Heap :=
  { h with
    refCount := fun j => if j = i then h.refCount i - 1 else h.refCount j }

/-- An object is alive while some owning reference remains; a `weak_ptr` to a
dead object is "expired". -/
def Heap.alive (h : Heap) (i : Nat) : Bool :=
  h.refCount i != 0

/-- Explicitly release object `i`'s underlying GPU memory/handles (what
`destroy()` does to still-live tracked resources). -/
def Heap.release (h : Heap) (i : Nat) : Heap :=
  { h with released := fun j => if j = i then true else h.released j }

/-- Release every still-live object in the list (the per-collection part of
the registry drain). -/
def Heap.drainList (h : Heap) (l : List Nat) : Heap :=
  l.foldl (fun acc i => if acc.alive i then acc.release i else acc) h

/-- Invalidate a native Vulkan handle (releasing the instance or logical
device). -/
def Heap.freeHandle (h : Heap) (o : Option Nat) : Heap :=
  match o with
  | none => h
  | some i => { h with handleAlive := fun j => if j = i then false else h.handleAlive j }

/-- `kp::Tensor` (external entity; contract per the spec data model): element
count, element byte-size, element data type, storage-class tag; it references
the device context non-owningly.  `id` is the object's heap identity. -/
structure Tensor where
  id : Nat
  physicalDevice : Option Nat
  device : Option Nat
  dataPtr : Nat
  elementTotalCount : Nat
  elementMemorySize : Nat
  dataType : TensorDataTypes
  tensorType : TensorTypes
deriving DecidableEq, Repr

/-- `kp::TensorT<T>` (external entity; typed tensor built from a data vector);
records the device context it was constructed against. -/
structure TensorT (T : Type) where
  id : Nat
  physicalDevice : Option Nat
  device : Option Nat
  data : List T
  tensorType : TensorTypes
deriving DecidableEq, Repr

/-- `kp::Algorithm` (external entity; contract per the spec data model),
generic over the element types `S` (specialization constants) and `P`
(push constants). -/
structure Algorithm (S P : Type) where
  id : Nat
  device : Option Nat
  tensors : List Tensor
  spirv : List Nat
  workgroup : List Nat
  specializationConstants : List S
  pushConstants : List P
deriving DecidableEq, Repr

/-- Modelled from the spec: the `kp::Algorithm` constructor (its source is not
among the given files).  Per §4.4, "if `workgroup` is unset, it defaults to
`(tensors[0].elementCount, 1, 1)`"; the spec does not fix the default for an
empty tensor list, modelled as `(1, 1, 1)`.  `id` is the heap identity the
manager's `new` assigns. -/
def mkAlgorithm (S P : Type) (id : Nat) (device : Option Nat)
    (tensors : List Tensor) (spirv : List Nat) (workgroup : List Nat)
    (specializationConstants : List S) (pushConstants : List P) :
    Algorithm S P :=
  { id := id
    device := device
    tensors := tensors
    spirv := spirv
    workgroup :=
      if workgroup = [] then
        match tensors with
        | [] => [1, 1, 1]
        | t :: _ => [t.elementTotalCount, 1, 1]
      else workgroup
    specializationConstants := specializationConstants
    pushConstants := pushConstants }

/-- State of a `kp::Manager` (private members, Manager.hpp lines 215-231).
The registry collections hold weak references, modelled as the tracked
objects' heap ids.  `destroyed` is modelled from the spec: the teardown state
machine of §4.5 (*Active* → *Destroyed*); the member that records it is not
visible in the given sources. -/
structure Manager where
  mInstance : Option Nat
  mFreeInstance : Bool
  mPhysicalDevice : Option Nat
  mDevice : Option Nat
  mFreeDevice : Bool
  mManagedTensors : List Nat
  mManagedSequences : List Nat
  mManagedAlgorithms : List Nat
  mComputeQueueFamilyIndices : List Nat
  mComputeQueues : List Nat
  mManageResources : Bool
  destroyed : Bool
deriving DecidableEq, Repr

/-- The private members' initializers (Manager.hpp lines 217-231):
`mInstance = nullptr`, `mFreeInstance = false`, `mPhysicalDevice = nullptr`,
`mDevice = nullptr`, `mFreeDevice = false`, empty collections, and
`mManageResources = false`. -/
def Manager.memberInit : Manager :=
  { mInstance := none
    mFreeInstance := false
    mPhysicalDevice := none
    mDevice := none
    mFreeDevice := false
    mManagedTensors := []
    mManagedSequences := []
    mManagedAlgorithms := []
    mComputeQueueFamilyIndices := []
    mComputeQueues := []
    mManageResources := false
    destroyed := false }

/-- Modelled from the spec: the adoption constructor
`Manager(instance, physicalDevice, device)` (declared at Manager.hpp lines
50-52; its body is not among the given sources).  Per §4.1(c), it accepts the
caller-owned handles directly and both ownership flags are set false; the
remaining members keep their initializers. -/
def Manager.adopt (inst physDev dev : Nat) : Manager :=
  { Manager.memberInit with
    mInstance := some inst
    mFreeInstance := false
    mPhysicalDevice := some physDev
    mDevice := some dev
    mFreeDevice := false }

/-- `Manager::tensorT<T>` (Manager.hpp lines 80-95): `new` a `TensorT<T>`
against `this->mPhysicalDevice` and `this->mDevice`, then append a weak
reference to `mManagedTensors` iff `mManageResources`. -/
def Manager.tensorT {T : Type} (m : Manager) (h : Heap) (data : List T)
    (tensorType : TensorTypes) : TensorT T × Manager × Heap :=
  let tensor : TensorT T :=
    { id := h.nextId
      physicalDevice := m.mPhysicalDevice
      device := m.mDevice
      data := data
      tensorType := tensorType }
  let h1 := h.alloc
  let m1 :=
    if m.mManageResources then
      { m with mManagedTensors := m.mManagedTensors ++ [tensor.id] }
    else m
  (tensor, m1, h1)

/-- `Manager::tensor(const std::vector<float>&, ...)` (Manager.hpp lines
97-102): delegates to `tensorT<float>`. -/
def Manager.tensor (m : Manager) (h : Heap) (data : List CFloat)
    (tensorType : TensorTypes) : TensorT CFloat × Manager × Heap :=
  m.tensorT h data tensorType

/-- `Manager::tensor(void*, ...)` raw-pointer overload (Manager.hpp lines
104-124): `new` a base `Tensor` against `this->mPhysicalDevice` and
`this->mDevice`, then append a weak reference to `mManagedTensors` iff
`mManageResources`. -/
def Manager.tensorRaw (m : Manager) (h : Heap) (data : Nat)
    (elementTotalCount : Nat) (elementMemorySize : Nat)
    (dataType : TensorDataTypes) (tensorType : TensorTypes) :
    Tensor × Manager × Heap :=
  let tensor : Tensor :=
    { id := h.nextId
      physicalDevice := m.mPhysicalDevice
      device := m.mDevice
      dataPtr := data
      elementTotalCount := elementTotalCount
      elementMemorySize := elementMemorySize
      dataType := dataType
      tensorType := tensorType }
  let h1 := h.alloc
  let m1 :=
    if m.mManageResources then
      { m with mManagedTensors := m.mManagedTensors ++ [tensor.id] }
    else m
  (tensor, m1, h1)

/-- `Manager::algorithm<S, P>` template overload (Manager.hpp lines 164-188):
`new` an `Algorithm` against `this->mDevice`, then append a weak reference to
`mManagedAlgorithms` iff `mManageResources`. -/
def Manager.algorithm {S P : Type} (m : Manager) (h : Heap)
    (tensors : List Tensor) (spirv : List Nat) (workgroup : List Nat)
    (specializationConstants : List S) (pushConstants : List P) :
    Algorithm S P × Manager × Heap :=
  let algorithm :=
    mkAlgorithm S P h.nextId m.mDevice tensors spirv workgroup
      specializationConstants pushConstants
  let h1 := h.alloc
  let m1 :=
    if m.mManageResources then
      { m with mManagedAlgorithms := m.mManagedAlgorithms ++ [algorithm.id] }
    else m
  (algorithm, m1, h1)

/-- `Manager::algorithm(...)` non-template overload (Manager.hpp lines
140-148): delegates to `algorithm<>` with the default template arguments
`S = float`, `P = float`. -/
def Manager.algorithmFloat (m : Manager) (h : Heap) (tensors : List Tensor)
    (spirv : List Nat) (workgroup : List Nat)
    (specializationConstants : List CFloat) (pushConstants : List CFloat) :
    Algorithm CFloat CFloat × Manager × Heap :=
  m.algorithm h tensors spirv workgroup specializationConstants pushConstants

/-- Modelled from the spec: `Manager::clear()` (declared at Manager.hpp lines
194-198; its body is not among the given sources).  Per §4.3 `sweep()`: for
each collection, remove every entry whose referent has already been destroyed;
entries whose referent is still alive are left untouched, and no resource is
touched (the heap is returned unchanged). -/
def Manager.clear (m : Manager) (h : Heap) : Manager × Heap :=
  ({ m with
     mManagedTensors := m.mManagedTensors.filter (fun i => h.alive i)
     mManagedSequences := m.mManagedSequences.filter (fun i => h.alive i)
     mManagedAlgorithms := m.mManagedAlgorithms.filter (fun i => h.alive i) },
   h)

/-- Modelled from the spec: `Manager::destroy()` (declared at Manager.hpp
lines 190-193; its body is not among the given sources).  Per §4.5: a no-op
when already Destroyed; otherwise drain the registry (release every still-live
tracked resource, then clear all three collections unconditionally), release
the logical device and the instance iff their respective ownership flags are
true, and mark the manager Destroyed. -/
def Manager.destroy (m : Manager) (h : Heap) : Manager × Heap :=
  if m.destroyed then (m, h)
  else
    let h1 :=
      ((h.drainList m.mManagedTensors).drainList m.mManagedSequences).drainList
        m.mManagedAlgorithms
    let h2 := if m.mFreeDevice then h1.freeHandle m.mDevice else h1
    let h3 := if m.mFreeInstance then h2.freeHandle m.mInstance else h2
    ({ m with
       mManagedTensors := []
       mManagedSequences := []
       mManagedAlgorithms := []
       destroyed := true },
     h3)

/-- The consecutive heap ids `s, s+1, ..., s+n-1` (the identities handed out
by `n` consecutive allocations starting from `nextId = s`). -/
def idsFrom (s n : Nat) : List Nat :=
  match n with
  | 0 => []
  | n + 1 => s :: idsFrom (s + 1) n

/-- Repeatedly call `Manager::tensorT` on a list of data vectors, returning
the created tensors and the final manager and heap (the spec's "sequence of N
resource creations"). -/
def Manager.createTensors {T : Type} (m : Manager) (h : Heap)
    (ds : List (List T)) (tensorType : TensorTypes) :
    List (TensorT T) × Manager × Heap :=
  match ds with
  | [] => ([], m, h)
  | d :: rest =>
    let r := m.tensorT h d tensorType
    let r2 := Manager.createTensors r.2.1 r.2.2 rest tensorType
    (r.1 :: r2.1, r2.2)

/-- Drop the one owning reference held on each listed tensor (the spec's
"external references go out of scope"). -/
def Heap.dropAll {T : Type} (h : Heap) (ts : List (TensorT T)) : Heap :=
  ts.foldl (fun acc t => acc.drop t.id) h

/-- One resource-creation call on a manager (the element shapes a caller can
put in a call sequence; the typed `tensorT` path is represented at its default
`float` instantiation). -/
inductive FactoryOp
  | tensorF (data : List CFloat) (tensorType : TensorTypes)
  | tensorRaw (data elementTotalCount elementMemorySize : Nat)
      (dataType : TensorDataTypes) (tensorType : TensorTypes)
  | algo (tensors : List Tensor) (spirv workgroup : List Nat)
      (specializationConstants pushConstants : List CFloat)

/-- Run one factory call, keeping only its manager/heap effect. -/
def runFactoryOp (o : FactoryOp) (m : Manager) (h : Heap) : Manager × Heap :=
  match o with
  | .tensorF d tt => (m.tensor h d tt).2
  | .tensorRaw d cnt sz dt tt => (m.tensorRaw h d cnt sz dt tt).2
  | .algo ts sp wg sc pc => (m.algorithmFloat h ts sp wg sc pc).2

/-- Run a sequence of factory calls. -/
def runFactoryOps (ops : List FactoryOp) (m : Manager) (h : Heap) :
    Manager × Heap :=
  match ops with
  | [] => (m, h)
  | o :: rest =>
    let r := runFactoryOp o m h
    runFactoryOps rest r.1 r.2

/-- One public operation on a manager: a factory call, `clear()`, or
`destroy()`. -/
inductive MgrOp
  | factory (o : FactoryOp)
  | clearOp
  | destroyOp

/-- Run one public operation. -/
def runMgrOp (o : MgrOp) (m : Manager) (h : Heap) : Manager × Heap :=
  match o with
  | .factory f => runFactoryOp f m h
  | .clearOp => m.clear h
  | .destroyOp => m.destroy h

/-- Run a sequence of public operations. -/
def runMgrOps (ops : List MgrOp) (m : Manager) (h : Heap) : Manager × Heap :=
  match ops with
  | [] => (m, h)
  | o :: rest =>
    let r := runMgrOp o m h
    runMgrOps rest r.1 r.2

/-- A world holding two independently constructed managers (and the shared
allocation heap that models the process address space). -/
structure TwoManagers where
  a : Manager
  b : Manager
  heap : Heap

/-- Perform one public operation on manager `a` of the world. -/
def TwoManagers.applyToA (w : TwoManagers) (o : MgrOp) : TwoManagers :=
  let r := runMgrOp o w.a w.heap
  { a := r.1, b := w.b, heap := r.2 }

/-- Perform a sequence of public operations, all on manager `a`. -/
def TwoManagers.applyListA (w : TwoManagers) (ops : List MgrOp) : TwoManagers :=
  match ops with
  | [] => w
  | o :: rest => (w.applyToA o).applyListA rest

/-- The sweep scenario of the spec's testable property: starting from a
manager with resource management enabled and empty registries, create one
tensor per data vector, then let every returned owning reference go out of
scope.  Yields the manager after the creations and the heap after the
drops. -/
def sweepScenario {T : Type} (m : Manager) (h : Heap) (ds : List (List T))
    (tt : TensorTypes) : Manager × Heap :=
  let r := ({ m with
              mManageResources := true
              mManagedTensors := []
              mManagedSequences := []
              mManagedAlgorithms := [] }).createTensors h ds tt
  (r.2.1, r.2.2.dropAll r.1)

theorem drainList_handleAlive (l : List Nat) :
    ∀ (h : Heap) (i : Nat), (h.drainList l).handleAlive i = h.handleAlive i := by
  induction l with
  | nil => intro h i; rfl
  | cons a t ih =>
    intro h i
    have e : Heap.drainList h (a :: t)
        = Heap.drainList (if h.alive a then h.release a else h) t := rfl
    rw [e, ih]
    by_cases ha : h.alive a = true
    · simp [ha, Heap.release]
    · simp [ha]

/-- C1: every resource-creation call (`tensorT`, the float `tensor` overload,
the raw-pointer `tensor` overload, and `algorithm<S,P>`) appends a weak
reference to the newly constructed resource to the corresponding registry
collection when `mManageResources` is true, leaving the other collections
unchanged; when the flag is false the call returns the manager (hence every
registry collection) unchanged. -/
theorem factory_registers_iff_manageResources {T S P : Type} (m : Manager)
    (h : Heap) (d : List T) (df : List CFloat) (dp cnt sz : Nat)
    (dt : TensorDataTypes) (tt : TensorTypes) (ts : List Tensor)
    (sp wg : List Nat) (sc : List S) (pc : List P) :
    (({ m with mManageResources := true }).tensorT h d tt).2.1.mManagedTensors
        = m.mManagedTensors
          ++ [(({ m with mManageResources := true }).tensorT h d tt).1.id]
    ∧ (({ m with mManageResources := true }).tensorT h d tt).2.1.mManagedSequences
        = m.mManagedSequences
    ∧ (({ m with mManageResources := true }).tensorT h d tt).2.1.mManagedAlgorithms
        = m.mManagedAlgorithms
    ∧ (({ m with mManageResources := false }).tensorT h d tt).2.1
        = { m with mManageResources := false }
    ∧ (({ m with mManageResources := true }).tensor h df tt).2.1.mManagedTensors
        = m.mManagedTensors
          ++ [(({ m with mManageResources := true }).tensor h df tt).1.id]
    ∧ (({ m with mManageResources := true }).tensor h df tt).2.1.mManagedSequences
        = m.mManagedSequences
    ∧ (({ m with mManageResources := true }).tensor h df tt).2.1.mManagedAlgorithms
        = m.mManagedAlgorithms
    ∧ (({ m with mManageResources := false }).tensor h df tt).2.1
        = { m with mManageResources := false }
    ∧ (({ m with mManageResources := true }).tensorRaw h dp cnt sz dt tt).2.1.mManagedTensors
        = m.mManagedTensors
          ++ [(({ m with mManageResources := true }).tensorRaw h dp cnt sz dt tt).1.id]
    ∧ (({ m with mManageResources := true }).tensorRaw h dp cnt sz dt tt).2.1.mManagedSequences
        = m.mManagedSequences
    ∧ (({ m with mManageResources := true }).tensorRaw h dp cnt sz dt tt).2.1.mManagedAlgorithms
        = m.mManagedAlgorithms
    ∧ (({ m with mManageResources := false }).tensorRaw h dp cnt sz dt tt).2.1
        = { m with mManageResources := false }
    ∧ (({ m with mManageResources := true }).algorithm h ts sp wg sc pc).2.1.mManagedAlgorithms
        = m.mManagedAlgorithms
          ++ [(({ m with mManageResources := true }).algorithm h ts sp wg sc pc).1.id]
    ∧ (({ m with mManageResources := true }).algorithm h ts sp wg sc pc).2.1.mManagedTensors
        = m.mManagedTensors
    ∧ (({ m with mManageResources := true }).algorithm h ts sp wg sc pc).2.1.mManagedSequences
        = m.mManagedSequences
    ∧ (({ m with mManageResources := false }).algorithm h ts sp wg sc pc).2.1
        = { m with mManageResources := false } :=
  ⟨rfl, rfl, rfl, rfl, rfl, rfl, rfl, rfl, rfl, rfl, rfl, rfl, rfl, rfl, rfl,
    rfl⟩

/-- C3: `destroy()` is idempotent — after one `destroy()` the manager is in
the Destroyed state, and running `destroy()` again from the resulting state
returns exactly that state (manager and heap), releasing nothing a second
time. -/
theorem destroy_idempotent (m : Manager) (h : Heap) :
    (m.destroy h).1.destroy (m.destroy h).2 = m.destroy h
    ∧ (m.destroy h).1.destroyed = true := by
  by_cases hd : m.destroyed = true
  · constructor
    · simp [Manager.destroy, hd]
    · simp [Manager.destroy, hd]
  · constructor
    · simp [Manager.destroy, hd]
    · simp [Manager.destroy, hd]

/-- C4: the adoption constructor leaves both ownership flags false, and
`destroy()` on an adopting manager releases neither the adopted instance nor
the adopted device: every native handle stays exactly as valid as before, and
the adopted handles are still held afterwards.  The last conjunct states the
frame for an arbitrary manager whose two ownership flags are false. -/
theorem adopt_destroy_preserves_handles (m : Manager) (h g : Heap)
    (hid inst physDev dev : Nat) :
    (Manager.adopt inst physDev dev).mFreeInstance = false
    ∧ (Manager.adopt inst physDev dev).mFreeDevice = false
    ∧ ((Manager.adopt inst physDev dev).destroy g).2.handleAlive hid
        = g.handleAlive hid
    ∧ ((Manager.adopt inst physDev dev).destroy g).1.mInstance = some inst
    ∧ ((Manager.adopt inst physDev dev).destroy g).1.mDevice = some dev
    ∧ (({ m with mFreeInstance := false, mFreeDevice := false }).destroy h).2.handleAlive hid
        = h.handleAlive hid := by
  refine ⟨rfl, rfl, rfl, rfl, rfl, ?_⟩
  by_cases hd : m.destroyed = true
  · simp [Manager.destroy, hd]
  · simp [Manager.destroy, hd, drainList_handleAlive]

/-- C5: registry entries are non-owning.  Creating a resource produces the
same heap (one fresh object with a single owning reference) whether or not
the registry records it; with management enabled the new resource's id is in
the registry, yet dropping the single owning reference returned to the caller
destroys the resource even though its registry entry remains; and `clear()`
changes no reference count, so expiry is independent of registry operations.
Stated for `tensorT`, the raw `tensor` overload, and `algorithm`. -/
theorem registry_entries_nonowning {T S P : Type} (m : Manager) (h : Heap)
    (d : List T) (tt : TensorTypes) (dp cnt sz : Nat) (dt : TensorDataTypes)
    (ts : List Tensor) (sp wg : List Nat) (sc : List S) (pc : List P) :
    (({ m with mManageResources := true }).tensorT h d tt).2.2
        = (({ m with mManageResources := false }).tensorT h d tt).2.2
    ∧ (({ m with mManageResources := true }).tensorT h d tt).1.id
        ∈ (({ m with mManageResources := true }).tensorT h d tt).2.1.mManagedTensors
    ∧ (({ m with mManageResources := true }).tensorT h d tt).2.2.refCount
        ((({ m with mManageResources := true }).tensorT h d tt).1.id) = 1
    ∧ ((({ m with mManageResources := true }).tensorT h d tt).2.2.drop
        ((({ m with mManageResources := true }).tensorT h d tt).1.id)).alive
        ((({ m with mManageResources := true }).tensorT h d tt).1.id) = false
    ∧ (∀ i, ((({ m with mManageResources := true }).tensorT h d tt).2.1.clear
          ((({ m with mManageResources := true }).tensorT h d tt).2.2.drop
            ((({ m with mManageResources := true }).tensorT h d tt).1.id))).2.refCount i
        = ((({ m with mManageResources := true }).tensorT h d tt).2.2.drop
            ((({ m with mManageResources := true }).tensorT h d tt).1.id)).refCount i)
    ∧ (({ m with mManageResources := true }).tensorRaw h dp cnt sz dt tt).2.2
        = (({ m with mManageResources := false }).tensorRaw h dp cnt sz dt tt).2.2
    ∧ (({ m with mManageResources := true }).tensorRaw h dp cnt sz dt tt).1.id
        ∈ (({ m with mManageResources := true }).tensorRaw h dp cnt sz dt tt).2.1.mManagedTensors
    ∧ ((({ m with mManageResources := true }).tensorRaw h dp cnt sz dt tt).2.2.drop
        ((({ m with mManageResources := true }).tensorRaw h dp cnt sz dt tt).1.id)).alive
        ((({ m with mManageResources := true }).tensorRaw h dp cnt sz dt tt).1.id) = false
    ∧ (({ m with mManageResources := true }).algorithm h ts sp wg sc pc).2.2
        = (({ m with mManageResources := false }).algorithm h ts sp wg sc pc).2.2
    ∧ (({ m with mManageResources := true }).algorithm h ts sp wg sc pc).1.id
        ∈ (({ m with mManageResources := true }).algorithm h ts sp wg sc pc).2.1.mManagedAlgorithms
    ∧ ((({ m with mManageResources := true }).algorithm h ts sp wg sc pc).2.2.drop
        ((({ m with mManageResources := true }).algorithm h ts sp wg sc pc).1.id)).alive
        ((({ m with mManageResources := true }).algorithm h ts sp wg sc pc).1.id) = false := by
  refine ⟨rfl, ?_, ?_, ?_, fun i => rfl, rfl, ?_, ?_, rfl, ?_, ?_⟩
  · simp [Manager.tensorT]
  · simp [Manager.tensorT, Heap.alloc]
  · simp [Manager.tensorT, Heap.alloc, Heap.drop, Heap.alive]
  · simp [Manager.tensorRaw]
  · simp [Manager.tensorRaw, Heap.alloc, Heap.drop, Heap.alive]
  · simp [Manager.algorithm, mkAlgorithm]
  · simp [Manager.algorithm, mkAlgorithm, Heap.alloc, Heap.drop, Heap.alive]

/-- C6: every factory call constructs the resource against this manager's own
device context: both `tensor` overloads and `tensorT` pass `mPhysicalDevice`
and `mDevice`, and both `algorithm` overloads pass `mDevice`. -/
theorem factory_uses_own_device_context {T S P : Type} (m : Manager)
    (h : Heap) (d : List T) (df : List CFloat) (dp cnt sz : Nat)
    (dt : TensorDataTypes) (tt : TensorTypes) (ts : List Tensor)
    (sp wg : List Nat) (sc : List S) (pc : List P)
    (scf pcf : List CFloat) :
    (m.tensorT h d tt).1.physicalDevice = m.mPhysicalDevice
    ∧ (m.tensorT h d tt).1.device = m.mDevice
    ∧ (m.tensor h df tt).1.physicalDevice = m.mPhysicalDevice
    ∧ (m.tensor h df tt).1.device = m.mDevice
    ∧ (m.tensorRaw h dp cnt sz dt tt).1.physicalDevice = m.mPhysicalDevice
    ∧ (m.tensorRaw h dp cnt sz dt tt).1.device = m.mDevice
    ∧ (m.algorithm h ts sp wg sc pc).1.device = m.mDevice
    ∧ (m.algorithmFloat h ts sp wg scf pcf).1.device = m.mDevice :=
  ⟨rfl, rfl, rfl, rfl, rfl, rfl, rfl, rfl⟩

/-- C7: an `algorithm` call with an unset (empty) workgroup and a non-empty
tensor list constructs the Algorithm with dispatch workgroup
`(tensors[0].elementCount, 1, 1)`, for the template and the non-template
overload alike. -/
theorem algorithm_default_workgroup {S P : Type} (m : Manager) (h : Heap)
    (t : Tensor) (rest : List Tensor) (sp : List Nat) (sc : List S)
    (pc : List P) (scf pcf : List CFloat) :
    (m.algorithm h (t :: rest) sp [] sc pc).1.workgroup
        = [t.elementTotalCount, 1, 1]
    ∧ (m.algorithmFloat h (t :: rest) sp [] scf pcf).1.workgroup
        = [t.elementTotalCount, 1, 1] := by
  constructor
  · simp [Manager.algorithm, mkAlgorithm]
  · simp [Manager.algorithmFloat, Manager.algorithm, mkAlgorithm]

/-- C9: the non-template overloads are definitionally the single-precision
float instantiations of the generic forms: `tensor` returns exactly what
`tensorT<float>` returns (resource, manager and heap — hence identical
registry side effects), and the non-template `algorithm` returns exactly what
`algorithm<float, float>` returns. -/
theorem nontemplate_overloads_are_float_instantiations (m : Manager)
    (h : Heap) (df : List CFloat) (tt : TensorTypes) (ts : List Tensor)
    (sp wg : List Nat) (scf pcf : List CFloat) :
    m.tensor h df tt = m.tensorT h df tt
    ∧ m.algorithmFloat h ts sp wg scf pcf
        = m.algorithm h ts sp wg scf pcf :=
  ⟨rfl, rfl⟩

theorem applyListA_eq (ops : List MgrOp) :
    ∀ (a b : Manager) (h : Heap),
      TwoManagers.applyListA ⟨a, b, h⟩ ops
        = ⟨(runMgrOps ops a h).1, b, (runMgrOps ops a h).2⟩ := by
  induction ops with
  | nil => intro a b h; rfl
  | cons o rest ih =>
    intro a b h
    have e : TwoManagers.applyListA ⟨a, b, h⟩ (o :: rest)
        = TwoManagers.applyListA
            ⟨(runMgrOp o a h).1, b, (runMgrOp o a h).2⟩ rest := rfl
    rw [e, ih]
    rfl

theorem runFactoryOp_flag_false (o : FactoryOp) (m : Manager) (h : Heap)
    (hm : m.mManageResources = false) : (runFactoryOp o m h).1 = m := by
  cases o <;>
    simp [runFactoryOp, Manager.tensor, Manager.tensorT, Manager.tensorRaw,
      Manager.algorithmFloat, Manager.algorithm, hm]

theorem runFactoryOps_flag_false (ops : List FactoryOp) :
    ∀ (m : Manager) (h : Heap), m.mManageResources = false →
      (runFactoryOps ops m h).1 = m := by
  induction ops with
  | nil => intro m h _; rfl
  | cons o rest ih =>
    intro m h hm
    have e : runFactoryOps (o :: rest) m h
        = runFactoryOps rest (runFactoryOp o m h).1 (runFactoryOp o m h).2 :=
      rfl
    rw [e, runFactoryOp_flag_false o m h hm]
    exact ih m _ hm

/-- C8: registries of two independently constructed managers are fully
independent.  For every sequence of factory/`clear()`/`destroy()` operations
applied to manager `a` of a two-manager world: manager `b` (in particular
each of its three registry collections) is left untouched, and the evolution
of manager `a` and of the heap is identical for every possible state of
manager `b` — so no operation on one manager can observe the resources
tracked by the other. -/
theorem managers_independent (ops : List MgrOp) (a b b2 : Manager)
    (h : Heap) :
    ((TwoManagers.mk a b h).applyListA ops).b = b
    ∧ ((TwoManagers.mk a b h).applyListA ops).b.mManagedTensors
        = b.mManagedTensors
    ∧ ((TwoManagers.mk a b h).applyListA ops).b.mManagedSequences
        = b.mManagedSequences
    ∧ ((TwoManagers.mk a b h).applyListA ops).b.mManagedAlgorithms
        = b.mManagedAlgorithms
    ∧ ((TwoManagers.mk a b2 h).applyListA ops).a
        = ((TwoManagers.mk a b h).applyListA ops).a
    ∧ ((TwoManagers.mk a b2 h).applyListA ops).heap
        = ((TwoManagers.mk a b h).applyListA ops).heap := by
  simp [applyListA_eq]

/-- C10: `mManageResources` is initialized false by its member initializer
(Manager.hpp line 231), so a manager whose construction leaves the
initializers in place starts with the flag false and empty registries, and
then every sequence of `tensorT`/`tensor`/`algorithm` calls — and every
single such call on any manager with the flag false — leaves the manager,
hence all three registry collections, completely unchanged. -/
theorem manageResources_defaults_false_no_registration {T S P : Type}
    (m : Manager) (h : Heap) (ops : List FactoryOp) (d : List T)
    (tt : TensorTypes) (dp cnt sz : Nat) (dt : TensorDataTypes)
    (ts : List Tensor) (sp wg : List Nat) (sc : List S) (pc : List P) :
    Manager.memberInit.mManageResources = false
    ∧ Manager.memberInit.mManagedTensors = []
    ∧ Manager.memberInit.mManagedSequences = []
    ∧ Manager.memberInit.mManagedAlgorithms = []
    ∧ (runFactoryOps ops Manager.memberInit h).1 = Manager.memberInit
    ∧ (runFactoryOps ops ({ m with mManageResources := false }) h).1
        = { m with mManageResources := false }
    ∧ (({ m with mManageResources := false }).tensorT h d tt).2.1
        = { m with mManageResources := false }
    ∧ (({ m with mManageResources := false }).tensorRaw h dp cnt sz dt tt).2.1
        = { m with mManageResources := false }
    ∧ (({ m with mManageResources := false }).algorithm h ts sp wg sc pc).2.1
        = { m with mManageResources := false } :=
  ⟨rfl, rfl, rfl, rfl, runFactoryOps_flag_false ops _ h rfl,
    runFactoryOps_flag_false ops _ h rfl, rfl, rfl, rfl⟩

theorem idsFrom_length (n : Nat) : ∀ s : Nat, (idsFrom s n).length = n := by
  induction n with
  | zero => intro s; rfl
  | succ n ih => intro s; simp [idsFrom, ih]

theorem mem_idsFrom (n : Nat) :
    ∀ s i : Nat, i ∈ idsFrom s n ↔ (s ≤ i ∧ i < s + n) := by
  induction n with
  | zero =>
    intro s i
    simp [idsFrom]
  | succ n ih =>
    intro s i
    simp [idsFrom, List.mem_cons, ih]
    omega

theorem createTensors_nextId {T : Type} (ds : List (List T)) :
    ∀ (m : Manager) (h : Heap) (tt : TensorTypes),
      (m.createTensors h ds tt).2.2.nextId = h.nextId + ds.length := by
  induction ds with
  | nil => intro m h tt; rfl
  | cons d rest ih =>
    intro m h tt
    have e : (m.createTensors h (d :: rest) tt).2.2
        = ((m.tensorT h d tt).2.1.createTensors (m.tensorT h d tt).2.2 rest
            tt).2.2 := rfl
    rw [e, ih]
    have e2 : (m.tensorT h d tt).2.2.nextId = h.nextId + 1 := rfl
    rw [e2]
    simp only [List.length_cons]
    omega

theorem createTensors_refCount {T : Type} (ds : List (List T)) :
    ∀ (m : Manager) (h : Heap) (tt : TensorTypes) (i : Nat),
      (m.createTensors h ds tt).2.2.refCount i
        = if h.nextId ≤ i ∧ i < h.nextId + ds.length then 1
          else h.refCount i := by
  induction ds with
  | nil =>
    intro m h tt i
    have hc : ¬(h.nextId ≤ i ∧ i < h.nextId + ([] : List (List T)).length) := by
      simp
    rw [if_neg hc]
    rfl
  | cons d rest ih =>
    intro m h tt i
    have e : (m.createTensors h (d :: rest) tt).2.2
        = ((m.tensorT h d tt).2.1.createTensors (m.tensorT h d tt).2.2 rest
            tt).2.2 := rfl
    rw [e, ih]
    have e2 : (m.tensorT h d tt).2.2.nextId = h.nextId + 1 := rfl
    have e3 : (m.tensorT h d tt).2.2.refCount i
        = if i = h.nextId then 1 else h.refCount i := rfl
    rw [e2, e3]
    simp only [List.length_cons]
    split_ifs <;> first | rfl | omega

theorem createTensors_ids {T : Type} (ds : List (List T)) :
    ∀ (m : Manager) (h : Heap) (tt : TensorTypes),
      (m.createTensors h ds tt).1.map (fun t => t.id)
        = idsFrom h.nextId ds.length := by
  induction ds with
  | nil => intro m h tt; rfl
  | cons d rest ih =>
    intro m h tt
    have e : (m.createTensors h (d :: rest) tt).1
        = (m.tensorT h d tt).1
          :: ((m.tensorT h d tt).2.1.createTensors (m.tensorT h d tt).2.2 rest
              tt).1 := rfl
    rw [e, List.map_cons, ih]
    rfl

theorem tensorT_registry_effect {T : Type} (m : Manager) (h : Heap)
    (d : List T) (tt : TensorTypes) :
    (m.tensorT h d tt).2.1.mManageResources = m.mManageResources
    ∧ (m.tensorT h d tt).2.1.mManagedSequences = m.mManagedSequences
    ∧ (m.tensorT h d tt).2.1.mManagedAlgorithms = m.mManagedAlgorithms
    ∧ (m.mManageResources = true →
        (m.tensorT h d tt).2.1.mManagedTensors
          = m.mManagedTensors ++ [h.nextId]) := by
  by_cases hm : m.mManageResources = true <;>
    simp [Manager.tensorT, hm]

theorem createTensors_manager {T : Type} (ds : List (List T)) :
    ∀ (m : Manager) (h : Heap) (tt : TensorTypes),
      (m.createTensors h ds tt).2.1.mManageResources = m.mManageResources
      ∧ (m.createTensors h ds tt).2.1.mManagedSequences = m.mManagedSequences
      ∧ (m.createTensors h ds tt).2.1.mManagedAlgorithms
          = m.mManagedAlgorithms
      ∧ (m.mManageResources = true →
          (m.createTensors h ds tt).2.1.mManagedTensors
            = m.mManagedTensors ++ idsFrom h.nextId ds.length) := by
  induction ds with
  | nil =>
    intro m h tt
    exact ⟨rfl, rfl, rfl, fun _ => by simp [Manager.createTensors, idsFrom]⟩
  | cons d rest ih =>
    intro m h tt
    have e : (m.createTensors h (d :: rest) tt).2.1
        = ((m.tensorT h d tt).2.1.createTensors (m.tensorT h d tt).2.2 rest
            tt).2.1 := rfl
    obtain ⟨g1, g2, g3, g4⟩ := tensorT_registry_effect m h d tt
    obtain ⟨f1, f2, f3, f4⟩ := ih (m.tensorT h d tt).2.1 (m.tensorT h d tt).2.2 tt
    refine ⟨by rw [e, f1, g1], by rw [e, f2, g2], by rw [e, f3, g3], ?_⟩
    intro hm
    rw [e, f4 (by rw [g1, hm]), g4 hm]
    have e2 : (m.tensorT h d tt).2.2.nextId = h.nextId + 1 := rfl
    rw [e2]
    simp [idsFrom, List.append_assoc]

theorem dropAll_refCount {T : Type} (ts : List (TensorT T)) :
    ∀ (h : Heap) (i : Nat),
      (h.dropAll ts).refCount i
        = h.refCount i - ts.countP (fun t => t.id == i) := by
  induction ts with
  | nil => intro h i; simp [Heap.dropAll]
  | cons t rest ih =>
    intro h i
    have e : h.dropAll (t :: rest) = (h.drop t.id).dropAll rest := rfl
    rw [e, ih]
    have e2 : (h.drop t.id).refCount i
        = if i = t.id then h.refCount t.id - 1 else h.refCount i := rfl
    rw [e2, List.countP_cons]
    by_cases hit : t.id = i
    · subst hit
      simp
      omega
    · have hb : (t.id == i) = false := by simp [hit]
      have hi2 : ¬(i = t.id) := fun hcon => hit hcon.symm
      rw [hb, if_neg hi2]
      simp

/-- C2: `clear()` removes from each registry collection exactly the entries
whose referent has been destroyed (an entry survives iff it is still in the
collection and its referent is alive; surviving entries keep their order, and
nothing is ever added), it modifies no resource (the heap is returned
unchanged) and no non-registry manager state; and in the sweep scenario —
`ds.length` managed creations whose returned owning references have all been
dropped — it removes exactly those `ds.length` entries, emptying the tensor
registry and leaving everything else as it was. -/
theorem clear_sweeps_exactly_expired {T : Type} (m : Manager) (h : Heap)
    (ds : List (List T)) (tt : TensorTypes) :
    (∀ (m2 : Manager) (h2 : Heap), (m2.clear h2).2 = h2)
    ∧ (∀ (m2 : Manager) (h2 : Heap) (i : Nat),
        i ∈ (m2.clear h2).1.mManagedTensors
          ↔ (i ∈ m2.mManagedTensors ∧ h2.alive i = true))
    ∧ (∀ (m2 : Manager) (h2 : Heap) (i : Nat),
        i ∈ (m2.clear h2).1.mManagedSequences
          ↔ (i ∈ m2.mManagedSequences ∧ h2.alive i = true))
    ∧ (∀ (m2 : Manager) (h2 : Heap) (i : Nat),
        i ∈ (m2.clear h2).1.mManagedAlgorithms
          ↔ (i ∈ m2.mManagedAlgorithms ∧ h2.alive i = true))
    ∧ (∀ (m2 : Manager) (h2 : Heap),
        (m2.clear h2).1.mManagedTensors.Sublist m2.mManagedTensors
        ∧ (m2.clear h2).1.mManagedSequences.Sublist m2.mManagedSequences
        ∧ (m2.clear h2).1.mManagedAlgorithms.Sublist m2.mManagedAlgorithms)
    ∧ (∀ (m2 : Manager) (h2 : Heap),
        (m2.clear h2).1.mInstance = m2.mInstance
        ∧ (m2.clear h2).1.mFreeInstance = m2.mFreeInstance
        ∧ (m2.clear h2).1.mPhysicalDevice = m2.mPhysicalDevice
        ∧ (m2.clear h2).1.mDevice = m2.mDevice
        ∧ (m2.clear h2).1.mFreeDevice = m2.mFreeDevice
        ∧ (m2.clear h2).1.mComputeQueueFamilyIndices
            = m2.mComputeQueueFamilyIndices
        ∧ (m2.clear h2).1.mComputeQueues = m2.mComputeQueues
        ∧ (m2.clear h2).1.mManageResources = m2.mManageResources
        ∧ (m2.clear h2).1.destroyed = m2.destroyed)
    ∧ (sweepScenario m h ds tt).1.mManagedTensors.length = ds.length
    ∧ ((sweepScenario m h ds tt).1.clear
        (sweepScenario m h ds tt).2).1.mManagedTensors = []
    ∧ ((sweepScenario m h ds tt).1.clear
        (sweepScenario m h ds tt).2).1.mManagedSequences = []
    ∧ ((sweepScenario m h ds tt).1.clear
        (sweepScenario m h ds tt).2).1.mManagedAlgorithms = []
    ∧ ((sweepScenario m h ds tt).1.clear (sweepScenario m h ds tt).2).2
        = (sweepScenario m h ds tt).2 := by
  set M : Manager :=
    { m with
      mManageResources := true
      mManagedTensors := []
      mManagedSequences := []
      mManagedAlgorithms := [] } with hMdef
  obtain ⟨c1, c2, c3, c4⟩ := createTensors_manager ds M h tt
  have hscen1 : (sweepScenario m h ds tt).1 = (M.createTensors h ds tt).2.1 :=
    rfl
  have hscen2 : (sweepScenario m h ds tt).2
      = (M.createTensors h ds tt).2.2.dropAll (M.createTensors h ds tt).1 :=
    rfl
  have hts : (sweepScenario m h ds tt).1.mManagedTensors
      = idsFrom h.nextId ds.length := by
    rw [hscen1, c4 rfl]
    rfl
  have hseq : (sweepScenario m h ds tt).1.mManagedSequences = [] := by
    rw [hscen1, c2]
  have halg : (sweepScenario m h ds tt).1.mManagedAlgorithms = [] := by
    rw [hscen1, c3]
  have hdead : ∀ i ∈ idsFrom h.nextId ds.length,
      (sweepScenario m h ds tt).2.alive i = false := by
    intro i hi
    have hb := (mem_idsFrom ds.length h.nextId i).1 hi
    have h1 : (M.createTensors h ds tt).2.2.refCount i = 1 := by
      rw [createTensors_refCount]
      exact if_pos hb
    have hm2 : i ∈ (M.createTensors h ds tt).1.map (fun t => t.id) := by
      rw [createTensors_ids]
      exact hi
    obtain ⟨t, htl, hti⟩ := List.mem_map.1 hm2
    have hc : 0 < (M.createTensors h ds tt).1.countP (fun t => t.id == i) :=
      List.countP_pos_iff.2 ⟨t, htl, by simp [hti]⟩
    have h2 : (sweepScenario m h ds tt).2.refCount i = 0 := by
      rw [hscen2, dropAll_refCount, h1]
      omega
    simp [Heap.alive, h2]
  have hfilter : (idsFrom h.nextId ds.length).filter
      (fun i => (sweepScenario m h ds tt).2.alive i) = [] := by
    refine List.filter_eq_nil_iff.2 ?_
    intro a ha
    simp [hdead a ha]
  refine ⟨fun m2 h2 => rfl,
    fun m2 h2 i => by simp [Manager.clear, List.mem_filter],
    fun m2 h2 i => by simp [Manager.clear, List.mem_filter],
    fun m2 h2 i => by simp [Manager.clear, List.mem_filter],
    fun m2 h2 => ⟨List.filter_sublist _, List.filter_sublist _,
      List.filter_sublist _⟩,
    fun m2 h2 => ⟨rfl, rfl, rfl, rfl, rfl, rfl, rfl, rfl, rfl⟩,
    ?_, ?_, ?_, ?_, rfl⟩
  · rw [hts, idsFrom_length]
  · show ((sweepScenario m h ds tt).1.mManagedTensors).filter
      (fun i => (sweepScenario m h ds tt).2.alive i) = []
    rw [hts, hfilter]
  · show ((sweepScenario m h ds tt).1.mManagedSequences).filter
      (fun i => (sweepScenario m h ds tt).2.alive i) = []
    rw [hseq]
    rfl
  · show ((sweepScenario m h ds tt).1.mManagedAlgorithms).filter
      (fun i => (sweepScenario m h ds tt).2.alive i) = []
    rw [halg]
    rfl

end Kompute
